import Mathlib

/-!
Verification development for the vote-by-mail replication repository.

The core under study is the two-way fixed-effects (TWFE) estimator with
optional county-specific polynomial trends and cluster-robust standard
errors.  The main implementation is `run_twfe_regression` in
`kwdwrd/4/vbm_replication/code/02_replicate.py`; auxiliary variants are
`run_panel_regression` / `run_manual_twfe` in
`kwdwrd/2/vbm_replication/code/02_replicate.py` and `run_twfe_regression`
in `kwdwrd/2/vbm_replication/code/05_run_extension.py`.

Numbers are modelled exactly over `ℚ` (the Python code computes in IEEE
floats; all structural properties below are about the exact algebra).
Calls into the statistics libraries are modelled as follows:

* `statsmodels` OLS (`sm.OLS(...).fit()`) computes the least-squares
  solution through the Moore-Penrose pseudoinverse; its fitted values are
  the orthogonal projection of the response onto the span of the design
  columns.  We model residuals by Gram-Schmidt projection, which computes
  exactly that projection residual (also in the rank-deficient case).
* `sm.add_constant` (default `has_constant='skip'`) prepends a constant
  column unless an existing column is constant and nonzero; on zero-row
  input the `np.ptp` reduction inside it raises `ValueError`.
* cluster-robust covariance (`cov_type='cluster'`) is the CRV1 sandwich
  `c * (X'X)^{-1} (Σ_g u_g u_g') (X'X)^{-1}` with
  `u_g = X_g' e_g` and correction `c = (G/(G-1)) * ((n-1)/(n-k))`.
* `linearmodels.PanelOLS` and the clustered `sm.OLS` fit inside the
  fallback of version 2 are opaque library calls; they are modelled as
  oracle parameters returning `Except` (an exception or a fit).
-/

deriving instance DecidableEq for Except

namespace Vbm

/-- Mean of a list of rationals (`Series.mean`); `0` junk value on `[]`
(pandas would give `NaN`; the empty case is never consumed on the
code paths the theorems below talk about). -/
def qmean (l : List ℚ) : ℚ := l.sum / l.length

/-- Squaring over ℚ (written with `*` so the kernel evaluates it). -/
def sq (x : ℚ) : ℚ := x * x

/-- Dot product of two parallel lists. -/
def dotQ (a b : List ℚ) : ℚ := ((a.zip b).map fun p => p.1 * p.2).sum

/-- Scalar multiple of a vector. -/
def vscale (c : ℚ) (v : List ℚ) : List ℚ := v.map (fun x => c * x)

/-- Componentwise difference of two parallel lists. -/
def vsub (a b : List ℚ) : List ℚ := (a.zip b).map fun p => p.1 - p.2

/-- Subtract from `w` its projection onto `u` (coefficient `⟨w,u⟩/⟨u,u⟩`;
rational division by zero is `0`, so a zero `u` contributes nothing,
matching the pseudoinverse convention). -/
def projStep (w u : List ℚ) : List ℚ := vsub w (vscale (dotQ w u / dotQ u u) u)

/-- Sequential Gram-Schmidt orthogonalisation of a list of columns. -/
def gsCols (cols : List (List ℚ)) : List (List ℚ) :=
  cols.foldl (fun us c => us ++ [us.foldl projStep c]) []

/-- Residual of `y` from the least-squares fit on the design columns
`cols` (the `resid` of `sm.OLS(y, X).fit()`): `y` minus its orthogonal
projection onto the span of the columns. -/
def olsResid (cols : List (List ℚ)) (y : List ℚ) : List ℚ :=
  (gsCols cols).foldl projStep y

/-- Fuelled helper for `firstAppear` (structural recursion so that the
kernel can evaluate it; the fuel is always at least the list length). -/
def firstAppearAux : ℕ → List ℕ → List ℕ
  | 0, _ => []
  | _ + 1, [] => []
  | n + 1, k :: rest => k :: firstAppearAux n (rest.filter (fun x => x ≠ k))

/-- Distinct values of a list in order of first appearance
(`pandas.Series.unique`). -/
def firstAppear (l : List ℕ) : List ℕ := firstAppearAux l.length l

/-- `True` iff the list is nonempty, all entries equal, and the entries
are nonzero: the `has_constant='skip'` test of `sm.add_constant`
(`np.ptp(x, axis=0) == 0` and first entry nonzero). -/
def isNonzeroConst (v : List ℚ) : Bool :=
  match v with
  | [] => false
  | a :: t => decide (a ≠ 0) && t.all (fun x => decide (x = a))

/-! ## Model of `run_twfe_regression`
(`kwdwrd/4/vbm_replication/code/02_replicate.py`, lines 42-193) -/

/-- An input row of the panel handed to `run_twfe_regression`: the
columns selected by `cols_needed` (outcome, treatment, county id,
state-year id, cluster id, year), each possibly missing. -/
structure InRow where
  y : Option ℚ
  treat : Option ℚ
  county : Option ℕ
  stateYear : Option ℕ
  clusterId : Option ℕ
  year : Option ℚ
deriving DecidableEq, Repr

/-- A retained row after `dropna`. -/
structure Row where
  y : ℚ
  treat : ℚ
  county : ℕ
  stateYear : ℕ
  clusterId : ℕ
  year : ℚ
deriving DecidableEq, Repr

/-- `dropna` on a single row: keep it iff no needed column is missing. -/
def dropRow (r : InRow) : Option Row :=
  match r.y, r.treat, r.county, r.stateYear, r.clusterId, r.year with
  | some a, some b, some c, some d, some e, some f => some ⟨a, b, c, d, e, f⟩
  | _, _, _, _, _, _ => none

/-- `sample = df[cols_needed].dropna().reset_index(drop=True)`. -/
def buildSample (df : List InRow) : List Row := df.filterMap dropRow

/-- Rows of the county group of `r.county`
(`sample.groupby(county_var)`, aligned back to rows by `transform`). -/
def countyGroup (s : List Row) (c : ℕ) : List Row :=
  s.filter (fun q => q.county = c)

/-- Rows of the state-year group of `t`. -/
def timeGroup (s : List Row) (t : ℕ) : List Row :=
  s.filter (fun q => q.stateYear = t)

/-- Step 1 for a column `f`: entity-demeaned value of row `r`
(`sample[col] - sample.groupby(county_var)[col].transform('mean')`). -/
def dmEntity (s : List Row) (f : Row → ℚ) (r : Row) : ℚ :=
  f r - qmean ((countyGroup s r.county).map f)

/-- Step 2 for a column `f`: state-year-demeaned value of the
entity-demeaned series
(`col_dm - sample.groupby(state_year_var)[col_dm].transform('mean')`). -/
def dmBoth (s : List Row) (f : Row → ℚ) (r : Row) : ℚ :=
  dmEntity s f r - qmean ((timeGroup s r.stateYear).map (dmEntity s f))

/-- Step 1, outcome (`y_dm`). -/
def ydm (s : List Row) : Row → ℚ := dmEntity s Row.y

/-- Step 1, treatment (`treat_dm`). -/
def tdm (s : List Row) : Row → ℚ := dmEntity s Row.treat

/-- Step 2, outcome (`y_dm2`). -/
def ydm2 (s : List Row) : Row → ℚ := dmBoth s Row.y

/-- Step 2, treatment (`treat_dm2`). -/
def tdm2 (s : List Row) : Row → ℚ := dmBoth s Row.treat

/-- Global mean of the year column (`sample['year'].mean()`). -/
def yearMean (s : List Row) : ℚ := qmean (s.map Row.year)

/-- Centered year (`year_c = sample['year'] - sample['year'].mean()`). -/
def yearC (s : List Row) (r : Row) : ℚ := r.year - yearMean s

/-- Counties in order of first appearance
(`sample[county_var].unique()`). -/
def countyOrder (s : List Row) : List ℕ := firstAppear (s.map Row.county)

/-- Constant column over a group. -/
def onesCol (g : List Row) : List ℚ := g.map fun _ => 1

/-- Centered-year column over a group (`county_data['year_c']`). -/
def tCol (s : List Row) (g : List Row) : List ℚ := g.map (yearC s)

/-- Squared centered-year column (`county_data['year_c2']`). -/
def t2Col (s : List Row) (g : List Row) : List ℚ := g.map (fun r => sq (yearC s r))

/-- Design columns of the per-county linear-trend regression:
`sm.add_constant(county_data['year_c'])`, with the `skip` behaviour. -/
def linDesign (s : List Row) (g : List Row) : List (List ℚ) :=
  if isNonzeroConst (tCol s g) then [tCol s g] else [onesCol g, tCol s g]

/-- Design columns of the per-county quadratic-trend regression:
`sm.add_constant(county_data[['year_c', 'year_c2']])`. -/
def quadDesign (s : List Row) (g : List Row) : List (List ℚ) :=
  if isNonzeroConst (tCol s g) || isNonzeroConst (t2Col s g) then
    [tCol s g, t2Col s g]
  else [onesCol g, tCol s g, t2Col s g]

/-- Body of the linear-trend county loop for one county and one value
series `v` (`y_dm2` or `treat_dm2`): groups with fewer than 2 rows are
passed through unchanged (`continue`), otherwise the series is replaced
by its residual from the county regression on `[const, year_c]`. -/
def residCountyLin (s : List Row) (v : Row → ℚ) (c : ℕ) : List ℚ :=
  let g := countyGroup s c
  if g.length < 2 then g.map v else olsResid (linDesign s g) (g.map v)

/-- Body of the quadratic-trend county loop: threshold 3,
design `[const, year_c, year_c2]`. -/
def residCountyQuad (s : List Row) (v : Row → ℚ) (c : ℕ) : List ℚ :=
  let g := countyGroup s c
  if g.length < 3 then g.map v else olsResid (quadDesign s g) (g.map v)

/-- Python exceptions surfaced by the modelled pipeline. -/
inductive PyErr where
  | valueError   -- np.ptp reduction on a zero-size array in add_constant
  | indexError   -- params.iloc[1] when add_constant skipped the constant
  | unboundLocal -- y_final/x_final never assigned (unknown trend_type)
deriving DecidableEq, Repr

/-- Step 3: the final outcome and treatment series, as positionally
reattached to `sample.index`.  For the trend branches the residual lists
are concatenated per county in order of first appearance
(`y_resid.extend(...)` inside the loop, then
`pd.Series(y_resid, index=sample.index)`).  An unknown `trend_type`
leaves `y_final`/`x_final` unassigned and Python raises
`UnboundLocalError` when line 175 reads `x_final`. -/
def finalSeries (s : List Row) (trend : String) :
    Except PyErr (List ℚ × List ℚ) :=
  if trend = "none" then .ok (s.map (ydm2 s), s.map (tdm2 s))
  else if trend = "linear" then
    .ok ((countyOrder s).flatMap (residCountyLin s (ydm2 s)),
         (countyOrder s).flatMap (residCountyLin s (tdm2 s)))
  else if trend = "quadratic" then
    .ok ((countyOrder s).flatMap (residCountyQuad s (ydm2 s)),
         (countyOrder s).flatMap (residCountyQuad s (tdm2 s)))
  else .error .unboundLocal

/-- The dict returned by `run_twfe_regression`.  `seSq` is the squared
standard error (the reported `se` is `√seSq` and `pval` is the two-sided
tail of the t distribution with `nClusters - 1` degrees of freedom at
`coef/√seSq`, so the Python record is a function of this data). -/
structure RegResult where
  coef : ℚ
  seSq : ℚ
  nObs : ℕ
  nClusters : ℕ
deriving DecidableEq, Repr

/-- Distinct cluster labels (`clusters.nunique()` counts them; the meat
of the sandwich sums over them). -/
def clusterVals (cl : List ℕ) : List ℕ := firstAppear cl

/-- Slope on `[const, x]` from the normal equations,
`(nΣxy - ΣxΣy) / (nΣx² - (Σx)²)`; for the rank-deficient all-zero `x`
this is `0/0 = 0`, the minimum-norm (pseudoinverse) solution. -/
def slopeOf (ys xs : List ℚ) : ℚ :=
  ((xs.length : ℚ) * dotQ xs ys - xs.sum * ys.sum) /
    ((xs.length : ℚ) * (xs.map sq).sum - xs.sum * xs.sum)

/-- Denominator of the slope, `det(X'X) = nΣx² - (Σx)²`. -/
def denOf (xs : List ℚ) : ℚ :=
  (xs.length : ℚ) * (xs.map sq).sum - xs.sum * xs.sum

/-- Intercept `(Σy - b₁Σx)/n`. -/
def interceptOf (ys xs : List ℚ) : ℚ :=
  (ys.sum - slopeOf ys xs * xs.sum) / (xs.length : ℚ)

/-- Residual of one observation `(y, x, cluster)`. -/
def residAt (ys xs : List ℚ) (p : ℚ × ℚ × ℕ) : ℚ :=
  p.1 - interceptOf ys xs - slopeOf ys xs * p.2.1

/-- The rows of the sample as `(y, x, cluster)` triples, in row order. -/
def ptsOf (ys xs : List ℚ) (cl : List ℕ) : List (ℚ × ℚ × ℕ) :=
  ys.zip (xs.zip cl)

/-- `(-Σx, n) · (Σ_{i∈c} e_i, Σ_{i∈c} x_i e_i)`: the un-normalised
second row of `(X'X)⁻¹ X_c' e_c` (to be divided by `det(X'X)`). -/
def clusterScore (ys xs : List ℚ) (cl : List ℕ) (c : ℕ) : ℚ :=
  (-(xs.sum))
      * ((((ptsOf ys xs cl).filter (fun p => p.2.2 = c)).map
          (residAt ys xs)).sum)
    + (xs.length : ℚ)
      * ((((ptsOf ys xs cl).filter (fun p => p.2.2 = c)).map
          (fun p => p.2.1 * residAt ys xs p)).sum)

/-- The `[1][1]` entry of `(X'X)⁻¹ (Σ_c u_c u_c') (X'X)⁻¹`. -/
def v11Of (ys xs : List ℚ) (cl : List ℕ) : ℚ :=
  ((clusterVals cl).map (fun c => sq (clusterScore ys xs cl c / denOf xs))).sum

/-- Small-sample correction `(G/(G-1)) * ((n-1)/(n-k))` with `k = 2`. -/
def corrOf (xs : List ℚ) (cl : List ℕ) : ℚ :=
  (((clusterVals cl).length : ℚ) / (((clusterVals cl).length : ℚ) - 1))
    * (((xs.length : ℚ) - 1) / ((xs.length : ℚ) - 2))

/-- The final regression (lines 173-193): OLS of `y_final` on
`[const, x_final]` with CRV1 cluster-robust covariance grouped by the
cluster column of `sample` (original row order).  Zero rows make
`add_constant` raise `ValueError`; a constant nonzero `x_final` makes
`add_constant` skip the constant so that `params.iloc[1]` raises
`IndexError`.  With the constant present the slope and the `[1][1]`
sandwich entry have the closed forms below (for an all-zero `x_final`
the design is rank-deficient and the pseudoinverse gives slope `0` and
variance entry `0`, which the `0`-valued rational divisions reproduce). -/
def fitCluster (ys xs : List ℚ) (cl : List ℕ) : Except PyErr RegResult :=
  if xs.isEmpty then .error .valueError
  else if isNonzeroConst xs then .error .indexError
  else
    .ok { coef := slopeOf ys xs, seSq := corrOf xs cl * v11Of ys xs cl,
          nObs := xs.length, nClusters := (clusterVals cl).length }

/-- `run_twfe_regression(df, ...)`: select and drop missing, demean by
county and state-year, absorb optional county trends, and run the final
clustered regression. -/
def runTwfe (df : List InRow) (trend : String) : Except PyErr RegResult :=
  let s := buildSample df
  match finalSeries s trend with
  | .error e => .error e
  | .ok (ys, xs) => fitCluster ys xs (s.map Row.clusterId)

/-- Number of distinct state-year periods in the retained sample (not
part of the returned record). -/
def nPeriodsOf (df : List InRow) : ℕ :=
  ((buildSample df).map Row.stateYear).toFinset.card

/-- Number of distinct counties in the retained sample. -/
def nEntitiesOf (df : List InRow) : ℕ :=
  ((buildSample df).map Row.county).toFinset.card

/-! ## Model of `run_panel_regression` / `run_manual_twfe`
(`kwdwrd/2/vbm_replication/code/02_replicate.py`, lines 56-219).

The library estimations (`PanelOLS(...).fit(...)` and the clustered
`sm.OLS(y, X).fit(...)` of the manual fallback) are opaque calls that may
raise; they are passed in as oracle arguments of type `Except`, so the
theorems about this function quantify over every possible library
behaviour.  The surrounding control flow (column selection, `dropna`,
the empty-sample guard, the `try/except` fallback, demeaning, and dict
assembly) is modelled concretely from the source. -/

/-- Input row of version 2: the `cols_needed` columns
(`y_var, x_var, county_id, state_year_id, year, year2`). -/
structure InRow2 where
  y : Option ℚ
  treat : Option ℚ
  county : Option ℕ
  stateYearId : Option ℕ
  year : Option ℚ
  year2 : Option ℚ
deriving DecidableEq, Repr

/-- Retained row of version 2 after `dropna`. -/
structure Row2 where
  y : ℚ
  treat : ℚ
  county : ℕ
  stateYearId : ℕ
  year : ℚ
  year2 : ℚ
deriving DecidableEq, Repr

/-- `dropna` on a version-2 row. -/
def dropRow2 (r : InRow2) : Option Row2 :=
  match r.y, r.treat, r.county, r.stateYearId, r.year, r.year2 with
  | some a, some b, some c, some d, some e, some f => some ⟨a, b, c, d, e, f⟩
  | _, _, _, _, _, _ => none

/-- `sample = df[sample_filter][cols_needed].dropna()` (a `None` filter
is the constantly-true predicate). -/
def buildSample2 (df : List InRow2) (flt : InRow2 → Bool) : List Row2 :=
  (df.filter flt).filterMap dropRow2

/-- Group mean aligned back to rows (`groupby(key).transform('mean')`). -/
def gmean2 (s : List Row2) (key : Row2 → ℕ) (f : Row2 → ℚ) (r : Row2) : ℚ :=
  qmean ((s.filter (fun q => key q = key r)).map f)

/-- County-demeaned value (`var - groupby('county_id').transform('mean')`). -/
def dmCounty (s : List Row2) (f : Row2 → ℚ) (r : Row2) : ℚ :=
  f r - gmean2 s Row2.county f r

/-- County- then state-year-demeaned value (the `_dm` columns of
`run_manual_twfe`). -/
def dmCS (s : List Row2) (f : Row2 → ℚ) (r : Row2) : ℚ :=
  dmCounty s f r - gmean2 s Row2.stateYearId (dmCounty s f) r

/-- What `PanelOLS(...).fit(...)` reports of itself: the treatment
coefficient, its clustered standard error, and `results.nobs`. -/
structure PanelFit where
  coef : ℚ
  se : ℚ
  nobs : ℕ
deriving DecidableEq, Repr

/-- What the manual path reads off `sm.OLS(y, X).fit(cov_type='cluster')`:
`params['{x_var}_dm']` and `bse['{x_var}_dm']`. -/
structure ManualFit where
  coefX : ℚ
  seX : ℚ
deriving DecidableEq, Repr

/-- The dict returned by `run_panel_regression` and `run_manual_twfe`:
`{coef, se, n_obs, n_counties, n_elections}`. -/
structure PanelOut where
  coef : ℚ
  se : ℚ
  nObs : ℕ
  nCounties : ℕ
  nElections : ℕ
deriving DecidableEq, Repr

/-- Oracle for the `PanelOLS` backend: gets the prepared sample and the
trend type (standing for the dependent/exog/trend-interaction columns
built from them) and either returns a fit or raises. -/
def PanelBackend : Type := List Row2 → String → Except String PanelFit

/-- Oracle for the clustered `sm.OLS` fit inside `run_manual_twfe`:
gets the demeaned response, the design columns and the cluster labels. -/
def ManualBackend : Type := List ℚ → List (List ℚ) → List ℕ → Except String ManualFit

/-- `run_manual_twfe(df, y_var, x_var, sample_filter, trend_type)`:
empty sample returns `None` (`.ok none`); otherwise demean `y` and `x`
by county then state-year, add the demeaned `year` (and `year2`) columns
for trend specifications, and run the clustered OLS.  The library call
is not wrapped in `try`, so its exception propagates (`.error`). -/
def runManualTwfe (mfit : ManualBackend) (df : List InRow2)
    (flt : InRow2 → Bool) (trend : String) :
    Except String (Option PanelOut) :=
  let s := buildSample2 df flt
  if s.isEmpty then .ok none
  else
    let yv := s.map (dmCS s Row2.y)
    let xcols := [s.map (dmCS s Row2.treat)]
      ++ (if trend = "none" then [] else [s.map (dmCS s Row2.year)])
      ++ (if trend = "quadratic" then [s.map (dmCS s Row2.year2)] else [])
    match mfit yv xcols (s.map Row2.county) with
    | .error e => .error e
    | .ok m =>
      .ok (some { coef := m.coefX, se := m.seX, nObs := s.length,
                  nCounties := (s.map Row2.county).toFinset.card,
                  nElections := (s.map Row2.stateYearId).toFinset.card })

/-- `run_panel_regression(df, y_var, x_var, sample_filter, trend_type)`:
empty sample returns `None`; otherwise try the `PanelOLS` backend and,
on any exception, fall back to `run_manual_twfe` on the same raw input
(whose own exception, if any, propagates to the caller). -/
def runPanelRegression (backend : PanelBackend) (mfit : ManualBackend)
    (df : List InRow2) (flt : InRow2 → Bool) (trend : String) :
    Except String (Option PanelOut) :=
  let s := buildSample2 df flt
  if s.isEmpty then .ok none
  else
    match backend s trend with
    | .ok f =>
      .ok (some { coef := f.coef, se := f.se, nObs := f.nobs,
                  nCounties := (s.map Row2.county).toFinset.card,
                  nElections := (s.map Row2.stateYearId).toFinset.card })
    | .error _ => runManualTwfe mfit df flt trend

/-! ## Model of the extension estimator
(`kwdwrd/2/vbm_replication/code/05_run_extension.py`, lines 35-110).
Again the `PanelOLS` fit is an oracle; the guard, the `except` branch
returning `None`, and the six-field dict are from the source. -/

/-- Input row of the extension estimator (`y_var, x_var, entity_var,
time_var, cluster_var`). -/
structure InRowE where
  y : Option ℚ
  treat : Option ℚ
  entity : Option ℕ
  time : Option ℕ
  cluster : Option ℕ
deriving DecidableEq, Repr

/-- Retained extension row after `dropna`. -/
structure RowE where
  y : ℚ
  treat : ℚ
  entity : ℕ
  time : ℕ
  cluster : ℕ
deriving DecidableEq, Repr

/-- `dropna` on an extension row. -/
def dropRowE (r : InRowE) : Option RowE :=
  match r.y, r.treat, r.entity, r.time, r.cluster with
  | some a, some b, some c, some d, some e => some ⟨a, b, c, d, e⟩
  | _, _, _, _, _ => none

/-- Prepared extension sample. -/
def buildSampleE (df : List InRowE) (flt : InRowE → Bool) : List RowE :=
  (df.filter flt).filterMap dropRowE

/-- What the extension `PanelOLS` fit reports: coefficient, standard
error, p-value and `results.nobs`. -/
structure ExtFit where
  coef : ℚ
  se : ℚ
  pval : ℚ
  nobs : ℕ
deriving DecidableEq, Repr

/-- The six-field dict of the extension estimator:
`{coef, se, pval, n_obs, n_entities, n_periods}`. -/
structure ExtOut where
  coef : ℚ
  se : ℚ
  pval : ℚ
  nObs : ℕ
  nEntities : ℕ
  nPeriods : ℕ
deriving DecidableEq, Repr

/-- Oracle for the extension `PanelOLS` fit. -/
def ExtBackend : Type := List RowE → Except String ExtFit

/-- `run_twfe_regression` of `05_run_extension.py`: `None` on an empty
sample, `None` on a backend exception (after printing a warning), else
the six-field record with the entity and period counts computed from the
sample index. -/
def runTwfeExt (backend : ExtBackend) (df : List InRowE)
    (flt : InRowE → Bool) : Option ExtOut :=
  let s := buildSampleE df flt
  if s.isEmpty then none
  else
    match backend s with
    | .error _ => none
    | .ok f =>
      some { coef := f.coef, se := f.se, pval := f.pval, nObs := f.nobs,
             nEntities := (s.map RowE.entity).toFinset.card,
             nPeriods := (s.map RowE.time).toFinset.card }

/-! ## Spec-side definitions (used to state the claims) -/

/-- The textbook OLS slope of `y` on `x` with intercept, as the spec
words it: `Σ(x-x̄)(y-ȳ) / Σ(x-x̄)²`. -/
def olsSlope (x y : List ℚ) : ℚ :=
  (((x.zip y).map (fun p => (p.1 - qmean x) * (p.2 - qmean y))).sum) /
    ((x.map (fun v => sq (v - qmean x))).sum)

/-- Every county's rows are contiguous in the sample, in order of first
appearance: the sample equals the concatenation of its county groups. -/
def Contiguous (s : List Row) : Prop :=
  s = (countyOrder s).flatMap (countyGroup s)

/-- `out` assigns to each row of `s` the residual that belongs to it:
restricted to any county's rows (in row order), `out` carries exactly
that county's residual list `res c` (in group order). -/
def CorrectlyAssigned (s : List Row) (res : ℕ → List ℚ) (out : List ℚ) : Prop :=
  out.length = s.length ∧
    ∀ c : ℕ, ((s.zip out).filter (fun p => p.1.county = c)).map Prod.snd = res c

/-- The set of counties of a sample. -/
def entityFinset (s : List Row) : Finset ℕ := (s.map Row.county).toFinset

/-- The set of state-year periods of a sample. -/
def timeFinset (s : List Row) : Finset ℕ := (s.map Row.stateYear).toFinset

/-- Balanced panel: every county of the sample is observed in every
state-year period of the sample exactly once. -/
def Balanced (s : List Row) : Prop :=
  ∀ e ∈ entityFinset s, ∀ t ∈ timeFinset s,
    (s.filter (fun r => r.county = e && r.stateYear = t)).length = 1

instance (s : List Row) : Decidable (Contiguous s) := by
  unfold Contiguous
  infer_instance

instance (s : List Row) : Decidable (Balanced s) := by
  unfold Balanced
  infer_instance

/-! ## Concrete inputs for counterexamples and witnesses -/

/-- Shorthand: a fully observed input row (cluster id = county id, as in
every call site of `run_twfe_regression`). -/
def mkRow (y x : ℚ) (c t : ℕ) (yr : ℚ) : InRow :=
  ⟨some y, some x, some c, some t, some c, some yr⟩

/-- A panel whose rows all miss the outcome: `dropna` retains nothing. -/
def pAllMissing : List InRow :=
  [⟨none, some 1, some 1, some 1, some 1, some 2000⟩,
   ⟨none, some 0, some 2, some 1, some 2, some 2000⟩]

/-- The same all-missing-outcome panel in the version-2 column layout. -/
def pAllMissing2 : List InRow2 :=
  [⟨none, some 1, some 1, some 1, some 2000, some 4000000⟩,
   ⟨none, some 0, some 2, some 1, some 2000, some 4000000⟩]

/-- Version-2 panel with retained rows (used to exercise the fallback). -/
def pSmall2 : List InRow2 :=
  [⟨some 1, some 0, some 1, some 1, some 2000, some 4000000⟩,
   ⟨some 2, some 1, some 1, some 2, some 2004, some 4016016⟩,
   ⟨some 5, some 1, some 2, some 1, some 2000, some 4000000⟩,
   ⟨some 3, some 0, some 2, some 2, some 2004, some 4016016⟩]

/-- A `PanelOLS` oracle that raises (e.g. a numerical singularity). -/
def backendRaises : PanelBackend := fun _ _ => .error "Singular matrix"

/-- A manual-path OLS oracle that raises. -/
def manualRaises : ManualBackend := fun _ _ _ => .error "SVD did not converge"

/-- A manual-path OLS oracle that returns a fit. -/
def manualReturns : ManualBackend := fun _ _ _ => .ok ⟨3, 2⟩

/-- An extension backend that returns a fixed fit. -/
def extReturns : ExtBackend := fun s => .ok ⟨2, 1, 1/2, s.length⟩

/-- Extension panel for the six-field witness. -/
def pExt : List InRowE :=
  [⟨some 1, some 0, some 1, some 1, some 1⟩,
   ⟨some 2, some 1, some 1, some 2, some 1⟩,
   ⟨some 4, some 1, some 2, some 1, some 2⟩]

/-- First leakage panel: three 3-row counties, three distinct state-year
periods; the demeaned series are unchanged by time demeaning (each
period's entity-demeaned values sum to zero). -/
def pLeakA : List InRow :=
  [mkRow 1 1 1 1 1, mkRow 0 (-1) 1 2 2, mkRow (-1) 0 1 3 3,
   mkRow 1 (-1) 2 1 1, mkRow (-2) 0 2 2 2, mkRow 1 1 2 3 3,
   mkRow (-2) 0 3 1 1, mkRow 2 1 3 2 2, mkRow 0 (-1) 3 3 3]

/-- Second leakage panel: identical outcome/treatment/county data but a
single shared state-year period, so one distinct period instead of
three.  The estimator returns the same record on both. -/
def pLeakB : List InRow :=
  [mkRow 1 1 1 9 1, mkRow 0 (-1) 1 9 2, mkRow (-1) 0 1 9 3,
   mkRow 1 (-1) 2 9 1, mkRow (-2) 0 2 9 2, mkRow 1 1 2 9 3,
   mkRow (-2) 0 3 9 1, mkRow 2 1 3 9 2, mkRow 0 (-1) 3 9 3]

/-- Unbalanced panel: county 1 observed in periods 1 and 2, county 2
only in period 1.  After both demeaning steps the within-county sums are
nonzero. -/
def pUnbal : List InRow :=
  [mkRow 1 0 1 1 1, mkRow 5 1 1 2 2, mkRow 2 1 2 1 1]

/-- Balanced 2-county x 2-period panel (witness input). -/
def pBal : List InRow :=
  [mkRow 1 0 1 1 1, mkRow 2 1 1 2 2, mkRow 5 1 2 1 1, mkRow 3 0 2 2 2]

/-- Single-period panel: all four rows share state-year 7. -/
def pOnePeriod : List InRow :=
  [mkRow 1 0 1 7 1, mkRow 3 1 1 7 2, mkRow 2 1 2 7 1, mkRow 2 0 2 7 2]

/-- Interleaved panel: rows of the three counties alternate, so the
county-grouped order of the trend residuals disagrees with row order. -/
def pInterleaved : List InRow :=
  [mkRow 1 0 1 1 1, mkRow 0 1 2 1 1, mkRow 3 1 3 1 1,
   mkRow 4 1 1 2 2, mkRow 1 1 2 2 2, mkRow 0 0 3 2 2,
   mkRow 2 0 1 3 3, mkRow 5 0 2 3 3, mkRow 1 1 3 3 3]

/-- The same nine observations with each county's rows contiguous in
first-appearance order (a permutation of `pInterleaved`). -/
def pContiguous : List InRow :=
  [mkRow 1 0 1 1 1, mkRow 4 1 1 2 2, mkRow 2 0 1 3 3,
   mkRow 0 1 2 1 1, mkRow 1 1 2 2 2, mkRow 5 0 2 3 3,
   mkRow 3 1 3 1 1, mkRow 0 0 3 2 2, mkRow 1 1 3 3 3]

/-- Panel with a 1-row county (county 2) and a 2-row county (county 3):
witness input for the small-group pass-through. -/
def pSmallGroups : List InRow :=
  [mkRow 1 0 1 1 1, mkRow 2 1 1 2 2, mkRow 4 1 1 3 3,
   mkRow 3 1 2 1 1, mkRow 0 0 3 2 2, mkRow 5 1 3 3 3]

/-! ## General lemmas about lists, means and `firstAppear` -/

theorem sum_filter_eq_ne {α β : Type _} [AddCommMonoid β] (key : α → ℕ) (k : ℕ)
    (f : α → β) (l : List α) :
    ((l.filter (fun a => key a = k)).map f).sum
      + ((l.filter (fun a => key a ≠ k)).map f).sum = (l.map f).sum := by
  induction l with
  | nil => simp
  | cons a t ih =>
    by_cases h : key a = k
    · have h1 : (a :: t).filter (fun b => key b = k)
          = a :: t.filter (fun b => key b = k) := by
        simp [List.filter_cons, h]
      have h2 : (a :: t).filter (fun b => key b ≠ k)
          = t.filter (fun b => key b ≠ k) := by
        simp [List.filter_cons, h]
      rw [h1, h2, List.map_cons, List.sum_cons, List.map_cons, List.sum_cons,
        add_assoc, ih]
    · have h1 : (a :: t).filter (fun b => key b = k)
          = t.filter (fun b => key b = k) := by
        simp [List.filter_cons, h]
      have h2 : (a :: t).filter (fun b => key b ≠ k)
          = a :: t.filter (fun b => key b ≠ k) := by
        simp [List.filter_cons, h]
      rw [h1, h2, List.map_cons, List.sum_cons, List.map_cons, List.sum_cons,
        ← ih]
      abel

theorem filter_map_comm {α : Type _} (g : α → ℕ) (p : ℕ → Bool) (l : List α) :
    (l.map g).filter p = (l.filter (fun a => p (g a))).map g := by
  induction l with
  | nil => simp
  | cons a t ih => by_cases h : p (g a) <;> simp [List.filter_cons, h, ih]

theorem firstAppearAux_fuel :
    ∀ n m (l : List ℕ), l.length ≤ n → l.length ≤ m →
      firstAppearAux n l = firstAppearAux m l := by
  intro n
  induction n with
  | zero =>
    intro m l hn _
    rw [List.length_eq_zero.1 (Nat.le_zero.1 hn)]
    cases m <;> rfl
  | succ n ih =>
    intro m l hn hm
    cases l with
    | nil => cases m <;> rfl
    | cons k rest =>
      cases m with
      | zero => exact absurd hm (by simp)
      | succ m =>
        simp only [firstAppearAux]
        congr 1
        exact ih m _
          (le_trans (List.length_filter_le _ _) (Nat.le_of_succ_le_succ hn))
          (le_trans (List.length_filter_le _ _) (Nat.le_of_succ_le_succ hm))

theorem firstAppear_cons (k : ℕ) (rest : List ℕ) :
    firstAppear (k :: rest)
      = k :: firstAppear (rest.filter (fun x => x ≠ k)) := by
  unfold firstAppear
  simp only [List.length_cons, firstAppearAux]
  congr 1
  exact firstAppearAux_fuel rest.length _ _ (List.length_filter_le _ _)
    le_rfl

theorem firstAppear_mem_aux (x : ℕ) :
    ∀ n (l : List ℕ), l.length = n → (x ∈ firstAppear l ↔ x ∈ l) := by
  intro n
  induction n using Nat.strong_induction_on with
  | _ n ih =>
    intro l hn
    cases l with
    | nil => simp [firstAppear, firstAppearAux]
    | cons k t =>
      rw [firstAppear_cons]
      have hlen : (t.filter (fun y => y ≠ k)).length < n := by
        rw [← hn]
        simp only [List.length_cons]
        exact Nat.lt_succ_of_le (List.length_filter_le _ _)
      rw [List.mem_cons, ih _ hlen _ rfl, List.mem_filter, List.mem_cons]
      by_cases hx : x = k <;> simp [hx]

theorem mem_firstAppear {x : ℕ} {l : List ℕ} : x ∈ firstAppear l ↔ x ∈ l :=
  firstAppear_mem_aux x l.length l rfl

theorem firstAppear_nodup_aux :
    ∀ n (l : List ℕ), l.length = n → (firstAppear l).Nodup := by
  intro n
  induction n using Nat.strong_induction_on with
  | _ n ih =>
    intro l hn
    cases l with
    | nil => simp [firstAppear, firstAppearAux]
    | cons k t =>
      rw [firstAppear_cons]
      have hlen : (t.filter (fun y => y ≠ k)).length < n := by
        rw [← hn]
        simp only [List.length_cons]
        exact Nat.lt_succ_of_le (List.length_filter_le _ _)
      refine List.nodup_cons.2 ⟨?_, ih _ hlen _ rfl⟩
      intro hk
      rw [mem_firstAppear, List.mem_filter] at hk
      simp at hk

theorem firstAppear_nodup (l : List ℕ) : (firstAppear l).Nodup :=
  firstAppear_nodup_aux l.length l rfl

theorem sum_fiber_aux {α β : Type _} [AddCommMonoid β] (key : α → ℕ) (f : α → β) :
    ∀ n (l : List α), l.length = n →
      ((firstAppear (l.map key)).map
        (fun k => ((l.filter (fun a => key a = k)).map f).sum)).sum
        = (l.map f).sum := by
  intro n
  induction n using Nat.strong_induction_on with
  | _ n ih =>
    intro l hn
    cases l with
    | nil => simp [firstAppear, firstAppearAux]
    | cons a t =>
      rw [List.map_cons, firstAppear_cons, List.map_cons, List.sum_cons]
      have hfa : (List.filter (fun y => y ≠ key a) (t.map key))
          = (t.filter (fun b => key b ≠ key a)).map key :=
        filter_map_comm key (fun y => decide (y ≠ key a)) t
      rw [hfa]
      have hlen : (t.filter (fun b => key b ≠ key a)).length < n := by
        rw [← hn]
        simp only [List.length_cons]
        exact Nat.lt_succ_of_le (List.length_filter_le _ _)
      have hhead : (a :: t).filter (fun b => key b = key a)
          = a :: t.filter (fun b => key b = key a) := by
        simp [List.filter_cons]
      have htail : ∀ k ∈ firstAppear ((t.filter (fun b => key b ≠ key a)).map key),
          (a :: t).filter (fun b => key b = k)
            = (t.filter (fun b => key b ≠ key a)).filter (fun b => key b = k) := by
        intro k hk
        rw [mem_firstAppear] at hk
        obtain ⟨b, hb, hbk⟩ := List.mem_map.1 hk
        rw [List.mem_filter] at hb
        have hbna : key b ≠ key a := by simpa using hb.2
        have hka : key a ≠ k := fun h => hbna (hbk.trans h.symm)
        have hcons : (a :: t).filter (fun b => key b = k)
            = t.filter (fun b => key b = k) := by
          simp [List.filter_cons, hka]
        rw [hcons, List.filter_comm]
        symm
        rw [List.filter_eq_self]
        intro b2 hb2
        rw [List.mem_filter] at hb2
        have hb2k : key b2 = k := by simpa using hb2.2
        have : key b2 ≠ key a := by
          rw [hb2k]
          exact fun h => hka h.symm
        simpa using this
      have hmapeq : (firstAppear ((t.filter (fun b => key b ≠ key a)).map key)).map
            (fun k => (((a :: t).filter (fun b => key b = k)).map f).sum)
          = (firstAppear ((t.filter (fun b => key b ≠ key a)).map key)).map
            (fun k => (((t.filter (fun b => key b ≠ key a)).filter
                (fun b => key b = k)).map f).sum) := by
        apply List.map_congr_left
        intro k hk
        rw [htail k hk]
      rw [hmapeq, ih _ hlen _ rfl, hhead, List.map_cons, List.sum_cons,
        add_assoc, sum_filter_eq_ne key (key a) f t, List.map_cons,
        List.sum_cons]

theorem sum_fiber {α β : Type _} [AddCommMonoid β] (key : α → ℕ) (f : α → β)
    (l : List α) :
    ((firstAppear (l.map key)).map
      (fun k => ((l.filter (fun a => key a = k)).map f).sum)).sum
      = (l.map f).sum :=
  sum_fiber_aux key f l.length l rfl

theorem sum_map_sub_const (l : List ℚ) (c : ℚ) :
    (l.map (fun x => x - c)).sum = l.sum - l.length * c := by
  induction l with
  | nil => simp
  | cons a t ih =>
    simp only [List.map_cons, List.sum_cons, ih, List.length_cons]
    push_cast
    ring

theorem sum_sub_qmean (l : List ℚ) :
    (l.map (fun x => x - qmean l)).sum = 0 := by
  rcases eq_or_ne l [] with h | h
  · simp [h]
  · rw [sum_map_sub_const, qmean]
    have hn : (l.length : ℚ) ≠ 0 := by
      simpa using h
    field_simp

theorem sum_map_sub_qmean {α : Type _} (g : List α) (f : α → ℚ) :
    (g.map (fun a => f a - qmean (g.map f))).sum = 0 := by
  simpa [List.map_map, Function.comp_def] using sum_sub_qmean (g.map f)

theorem sum_map_sub {α : Type _} (l : List α) (f g : α → ℚ) :
    (l.map (fun a => f a - g a)).sum = (l.map f).sum - (l.map g).sum := by
  induction l with
  | nil => simp
  | cons a t ih =>
    simp only [List.map_cons, List.sum_cons, ih]
    ring

theorem mem_countyGroup_county {s : List Row} {c : ℕ} {r : Row}
    (hr : r ∈ countyGroup s c) : r.county = c := by
  simpa using (List.mem_filter.1 hr).2

theorem mem_timeGroup_stateYear {s : List Row} {t : ℕ} {r : Row}
    (hr : r ∈ timeGroup s t) : r.stateYear = t := by
  simpa using (List.mem_filter.1 hr).2

theorem sum_dmEntity_group (s : List Row) (f : Row → ℚ) (c : ℕ) :
    ((countyGroup s c).map (dmEntity s f)).sum = 0 := by
  have hcg : ∀ r ∈ countyGroup s c,
      dmEntity s f r = f r - qmean ((countyGroup s c).map f) := by
    intro r hr
    rw [dmEntity, mem_countyGroup_county hr]
  rw [List.map_congr_left hcg]
  exact sum_map_sub_qmean (countyGroup s c) f

theorem sum_dmEntity_total (s : List Row) (f : Row → ℚ) :
    (s.map (dmEntity s f)).sum = 0 := by
  rw [← sum_fiber Row.county (dmEntity s f) s]
  apply List.sum_eq_zero
  intro x hx
  obtain ⟨k, _, rfl⟩ := List.mem_map.1 hx
  exact sum_dmEntity_group s f k

theorem sum_dmBoth_timeGroup (s : List Row) (f : Row → ℚ) (t : ℕ) :
    ((timeGroup s t).map (dmBoth s f)).sum = 0 := by
  have hcg : ∀ r ∈ timeGroup s t,
      dmBoth s f r
        = dmEntity s f r - qmean ((timeGroup s t).map (dmEntity s f)) := by
    intro r hr
    rw [dmBoth, mem_timeGroup_stateYear hr]
  rw [List.map_congr_left hcg]
  exact sum_map_sub_qmean (timeGroup s t) (dmEntity s f)

theorem sum_map_fiber_singletons {α β : Type _} [AddCommMonoid β]
    (l : List α) (key : α → ℕ) (F : ℕ → β) (K : Finset ℕ)
    (hmem : ∀ k, k ∈ l.map key ↔ k ∈ K)
    (hcount : ∀ k ∈ K, (l.filter (fun a => key a = k)).length = 1) :
    (l.map (fun a => F (key a))).sum = K.sum F := by
  rw [← sum_fiber key (fun a => F (key a)) l]
  have hinner : ∀ k ∈ firstAppear (l.map key),
      ((l.filter (fun a => key a = k)).map (fun a => F (key a))).sum = F k := by
    intro k hk
    rw [mem_firstAppear, hmem] at hk
    have hmap : (l.filter (fun a => key a = k)).map (fun a => F (key a))
        = (l.filter (fun a => key a = k)).map (fun _ => F k) := by
      apply List.map_congr_left
      intro a ha
      have hak : key a = k := by simpa using (List.mem_filter.1 ha).2
      rw [hak]
    rw [hmap, List.map_const', List.sum_replicate, hcount k hk, one_smul]
  rw [List.map_congr_left hinner, ← List.sum_toFinset F (firstAppear_nodup _)]
  congr 1
  ext k
  rw [List.mem_toFinset, mem_firstAppear, hmem]

theorem countyGroup_filter_time (s : List Row) (e t : ℕ) :
    (countyGroup s e).filter (fun r => r.stateYear = t)
      = s.filter (fun r => r.county = e && r.stateYear = t) := by
  rw [countyGroup, List.filter_filter]
  apply List.filter_congr
  intro r _
  exact Bool.and_comm _ _

theorem timeGroup_filter_county (s : List Row) (e t : ℕ) :
    (timeGroup s t).filter (fun r => r.county = e)
      = s.filter (fun r => r.county = e && r.stateYear = t) := by
  rw [timeGroup, List.filter_filter]

theorem cell_nonempty_mem {s : List Row} (hb : Balanced s) {e t : ℕ}
    (he : e ∈ entityFinset s) (ht : t ∈ timeFinset s) :
    ∃ r ∈ s, r.county = e ∧ r.stateYear = t := by
  have h1 := hb e he t ht
  have h2 : s.filter (fun r => r.county = e && r.stateYear = t) ≠ [] := by
    intro hnil
    rw [hnil] at h1
    simp at h1
  obtain ⟨r, hr⟩ := List.exists_mem_of_ne_nil _ h2
  refine ⟨r, List.mem_of_mem_filter hr, ?_⟩
  have := (List.mem_filter.1 hr).2
  simpa using this

theorem timeGroup_length_balanced {s : List Row} (hb : Balanced s) {t : ℕ}
    (ht : t ∈ timeFinset s) :
    (timeGroup s t).length = (entityFinset s).card := by
  have h := sum_map_fiber_singletons (timeGroup s t) Row.county
      (fun _ => (1 : ℕ)) (entityFinset s) ?_ ?_
  · simpa using h
  · intro e
    constructor
    · intro he
      obtain ⟨r, hr, rfl⟩ := List.mem_map.1 he
      exact List.mem_toFinset.2
        (List.mem_map_of_mem Row.county (List.mem_of_mem_filter hr))
    · intro he
      obtain ⟨r, hrs, hre, hrt⟩ := cell_nonempty_mem hb he ht
      refine List.mem_map.2 ⟨r, ?_, hre⟩
      rw [timeGroup, List.mem_filter]
      exact ⟨hrs, by simpa using hrt⟩
  · intro e he
    rw [timeGroup_filter_county]
    exact hb e he t ht

theorem sum_dmBoth_countyGroup_balanced (s : List Row) (f : Row → ℚ)
    (hb : Balanced s) (e : ℕ) :
    ((countyGroup s e).map (dmBoth s f)).sum = 0 := by
  by_cases hge : countyGroup s e = []
  · simp [hge]
  · have hein : e ∈ entityFinset s := by
      obtain ⟨r, hr⟩ := List.exists_mem_of_ne_nil _ hge
      have h1 : r.county = e := mem_countyGroup_county hr
      exact List.mem_toFinset.2
        (h1 ▸ List.mem_map_of_mem Row.county (List.mem_of_mem_filter hr))
    have hsplit : ((countyGroup s e).map (dmBoth s f)).sum
        = ((countyGroup s e).map (dmEntity s f)).sum
          - ((countyGroup s e).map (fun r =>
              qmean ((timeGroup s r.stateYear).map (dmEntity s f)))).sum := by
      rw [← sum_map_sub]
      rfl
    rw [hsplit, sum_dmEntity_group]
    have hT : ((countyGroup s e).map (fun r =>
          qmean ((timeGroup s r.stateYear).map (dmEntity s f)))).sum
        = (timeFinset s).sum
          (fun t => qmean ((timeGroup s t).map (dmEntity s f))) := by
      refine sum_map_fiber_singletons (countyGroup s e) Row.stateYear
        (fun t => qmean ((timeGroup s t).map (dmEntity s f)))
        (timeFinset s) ?_ ?_
      · intro t
        constructor
        · intro htm
          obtain ⟨r, hr, rfl⟩ := List.mem_map.1 htm
          exact List.mem_toFinset.2
            (List.mem_map_of_mem Row.stateYear (List.mem_of_mem_filter hr))
        · intro htm
          obtain ⟨r, hrs, hre, hrt⟩ := cell_nonempty_mem hb hein htm
          refine List.mem_map.2 ⟨r, ?_, hrt⟩
          rw [countyGroup, List.mem_filter]
          exact ⟨hrs, by simpa using hre⟩
      · intro t ht
        rw [countyGroup_filter_time]
        exact hb e hein t ht
    rw [hT]
    have hE : ∀ t ∈ timeFinset s,
        qmean ((timeGroup s t).map (dmEntity s f))
          = ((timeGroup s t).map (dmEntity s f)).sum
              / ((entityFinset s).card : ℚ) := by
      intro t ht
      rw [qmean, List.length_map, timeGroup_length_balanced hb ht]
    rw [Finset.sum_congr rfl hE, ← Finset.sum_div]
    have htot : (timeFinset s).sum
        (fun t => ((timeGroup s t).map (dmEntity s f)).sum) = 0 := by
      have h2 := sum_fiber Row.stateYear (dmEntity s f) s
      rw [sum_dmEntity_total] at h2
      have h3 : timeFinset s = (firstAppear (s.map Row.stateYear)).toFinset := by
        ext t
        simp [timeFinset, mem_firstAppear]
      rw [h3, List.sum_toFinset _ (firstAppear_nodup _)]
      exact h2
    rw [htot, zero_div, sub_zero]

theorem dmBoth_noop_single_period (s : List Row) (f : Row → ℚ) (T : ℕ)
    (hT : ∀ r ∈ s, r.stateYear = T) :
    s.map (dmBoth s f) = s.map (dmEntity s f) := by
  apply List.map_congr_left
  intro r hr
  rw [dmBoth]
  have h2 : timeGroup s r.stateYear = s := by
    rw [hT r hr, timeGroup]
    exact List.filter_eq_self.2 fun q hq => by simpa using hT q hq
  rw [h2]
  have h3 : qmean (s.map (dmEntity s f)) = 0 := by
    rw [qmean, sum_dmEntity_total, zero_div]
  rw [h3, sub_zero]

theorem sum_zip_sub_mul (ps : List (ℚ × ℚ)) (a b : ℚ) :
    (ps.map (fun p => (p.1 - a) * (p.2 - b))).sum
      = (ps.map (fun p => p.1 * p.2)).sum - b * (ps.map Prod.fst).sum
        - a * (ps.map Prod.snd).sum + (ps.length : ℚ) * (a * b) := by
  induction ps with
  | nil => simp
  | cons p t ih =>
    simp only [List.map_cons, List.sum_cons, ih, List.length_cons]
    push_cast
    ring

theorem sum_map_sq_sub (l : List ℚ) (a : ℚ) :
    (l.map (fun v => sq (v - a))).sum
      = (l.map sq).sum - 2 * a * l.sum + (l.length : ℚ) * (a * a) := by
  induction l with
  | nil => simp
  | cons v t ih =>
    simp only [List.map_cons, List.sum_cons, ih, List.length_cons]
    simp only [sq]
    push_cast
    ring

theorem div_div_div_same (A B n : ℚ) (hn : n ≠ 0) :
    (A / n) / (B / n) = A / B := by
  rcases eq_or_ne B 0 with hB | hB
  · simp [hB]
  · field_simp

theorem olsSlope_eq_slopeOf (xs ys : List ℚ) (hne : xs ≠ [])
    (hlen : ys.length = xs.length) :
    olsSlope xs ys = slopeOf ys xs := by
  have hn : (xs.length : ℚ) ≠ 0 := by simpa using hne
  have hzf : (xs.zip ys).map Prod.fst = xs :=
    List.map_fst_zip xs ys (le_of_eq hlen.symm)
  have hzs : (xs.zip ys).map Prod.snd = ys :=
    List.map_snd_zip xs ys (le_of_eq hlen)
  have hzl : ((xs.zip ys).length : ℚ) = (xs.length : ℚ) := by
    rw [List.length_zip, hlen, min_self]
  have hdot : ((xs.zip ys).map (fun p => p.1 * p.2)).sum = dotQ xs ys := rfl
  rw [olsSlope, sum_zip_sub_mul, hzf, hzs, hzl, hdot, sum_map_sq_sub,
    qmean, qmean]
  have hnum : dotQ xs ys - ys.sum / (ys.length : ℚ) * xs.sum
        - xs.sum / (xs.length : ℚ) * ys.sum
        + (xs.length : ℚ) * (xs.sum / (xs.length : ℚ) * (ys.sum / (ys.length : ℚ)))
      = ((xs.length : ℚ) * dotQ xs ys - xs.sum * ys.sum) / (xs.length : ℚ) := by
    rw [hlen]
    field_simp
    ring
  have hden : (xs.map sq).sum - 2 * (xs.sum / (xs.length : ℚ)) * xs.sum
        + (xs.length : ℚ) * (xs.sum / (xs.length : ℚ) * (xs.sum / (xs.length : ℚ)))
      = ((xs.length : ℚ) * (xs.map sq).sum - xs.sum * xs.sum) / (xs.length : ℚ) := by
    field_simp
    ring
  rw [hnum, hden, div_div_div_same _ _ _ hn, slopeOf]

theorem runTwfe_none (df : List InRow) :
    runTwfe df "none"
      = fitCluster ((buildSample df).map (ydm2 (buildSample df)))
          ((buildSample df).map (tdm2 (buildSample df)))
          ((buildSample df).map Row.clusterId) := by
  have hser : finalSeries (buildSample df) "none"
      = .ok ((buildSample df).map (ydm2 (buildSample df)),
             (buildSample df).map (tdm2 (buildSample df))) := by
    simp [finalSeries]
  simp only [runTwfe, hser]

theorem fitCluster_ok {ys xs : List ℚ} {cl : List ℕ} {r : RegResult}
    (h : fitCluster ys xs cl = .ok r) :
    r.coef = slopeOf ys xs ∧ xs ≠ [] ∧ isNonzeroConst xs = false := by
  unfold fitCluster at h
  split at h
  next hE => exact absurd h (by simp)
  next hE =>
    split at h
    next hC => exact absurd h (by simp)
    next hC =>
      injection h with h
      subst h
      refine ⟨rfl, ?_, ?_⟩
      · simpa [List.isEmpty_iff] using hE
      · simpa using hC

theorem qmean_perm {l1 l2 : List ℚ} (h : l1.Perm l2) : qmean l1 = qmean l2 := by
  rw [qmean, qmean, h.sum_eq, h.length_eq]

theorem dmEntity_perm {s1 s2 : List Row} (h : s1.Perm s2) (f : Row → ℚ)
    (r : Row) : dmEntity s1 f r = dmEntity s2 f r := by
  rw [dmEntity, dmEntity]
  congr 1
  exact qmean_perm ((h.filter _).map f)

theorem dmBoth_perm {s1 s2 : List Row} (h : s1.Perm s2) (f : Row → ℚ)
    (r : Row) : dmBoth s1 f r = dmBoth s2 f r := by
  rw [dmBoth, dmBoth, dmEntity_perm h f r]
  congr 1
  have h1 : (timeGroup s1 r.stateYear).map (dmEntity s1 f)
      = (timeGroup s1 r.stateYear).map (dmEntity s2 f) :=
    List.map_congr_left fun q _ => dmEntity_perm h f q
  rw [h1]
  exact qmean_perm ((h.filter _).map _)

theorem isNonzeroConst_iff (v : List ℚ) :
    isNonzeroConst v = true ↔ v ≠ [] ∧ ∃ c, c ≠ 0 ∧ ∀ x ∈ v, x = c := by
  cases v with
  | nil => simp [isNonzeroConst]
  | cons a t =>
    simp only [isNonzeroConst, Bool.and_eq_true, decide_eq_true_eq,
      List.all_eq_true]
    constructor
    · rintro ⟨ha, hall⟩
      refine ⟨by simp, a, ha, ?_⟩
      intro x hx
      rcases List.mem_cons.1 hx with rfl | hx
      · rfl
      · exact hall x hx
    · rintro ⟨-, c, hc, hall⟩
      have ha : a = c := hall a (List.mem_cons_self a t)
      refine ⟨by rw [ha]; exact hc, ?_⟩
      intro x hx
      rw [hall x (List.mem_cons_of_mem a hx), ha]

theorem isNonzeroConst_perm {v1 v2 : List ℚ} (h : v1.Perm v2) :
    isNonzeroConst v1 = isNonzeroConst v2 := by
  rw [Bool.eq_iff_iff, isNonzeroConst_iff, isNonzeroConst_iff]
  constructor
  · rintro ⟨hne, c, hc, hall⟩
    refine ⟨?_, c, hc, fun x hx => hall x (h.mem_iff.2 hx)⟩
    intro h2
    exact hne (List.eq_nil_of_length_eq_zero (by rw [h.length_eq, h2]; rfl))
  · rintro ⟨hne, c, hc, hall⟩
    refine ⟨?_, c, hc, fun x hx => hall x (h.mem_iff.1 hx)⟩
    intro h2
    exact hne (List.eq_nil_of_length_eq_zero (by rw [← h.length_eq, h2]; rfl))

theorem ptsOf_map (s : List Row) (fy fx : Row → ℚ) :
    ptsOf (s.map fy) (s.map fx) (s.map Row.clusterId)
      = s.map (fun r => (fy r, fx r, r.clusterId)) := by
  rw [ptsOf, List.zip_map', List.zip_map']

theorem dotQ_map (s : List Row) (f g : Row → ℚ) :
    dotQ (s.map f) (s.map g) = (s.map (fun r => f r * g r)).sum := by
  rw [dotQ, List.zip_map', List.map_map]
  rfl

theorem map_sq_map (s : List Row) (f : Row → ℚ) :
    (s.map f).map sq = s.map (fun r => sq (f r)) := by
  rw [List.map_map]
  rfl

theorem perm_filter_map_sum {α β : Type _} {s1 s2 : List α} (h : s1.Perm s2)
    (f : α → β) (q : β → Bool) (g : β → ℚ) :
    (((s1.map f).filter q).map g).sum = (((s2.map f).filter q).map g).sum :=
  (((h.map f).filter q).map g).sum_eq

theorem fitCluster_perm {s1 s2 : List Row} (h : s1.Perm s2) (fy fx : Row → ℚ) :
    fitCluster (s1.map fy) (s1.map fx) (s1.map Row.clusterId)
      = fitCluster (s2.map fy) (s2.map fx) (s2.map Row.clusterId) := by
  have hlen : s1.length = s2.length := h.length_eq
  have hsum : ∀ g : Row → ℚ, (s1.map g).sum = (s2.map g).sum :=
    fun g => (h.map g).sum_eq
  have htf : (firstAppear (s1.map Row.clusterId)).toFinset
      = (firstAppear (s2.map Row.clusterId)).toFinset := by
    ext k
    simp only [List.mem_toFinset, mem_firstAppear]
    exact (h.map Row.clusterId).mem_iff
  have hslope : slopeOf (s1.map fy) (s1.map fx)
      = slopeOf (s2.map fy) (s2.map fx) := by
    rw [slopeOf, slopeOf, dotQ_map, dotQ_map, map_sq_map, map_sq_map,
      List.length_map, List.length_map, hlen, hsum fy, hsum fx,
      hsum (fun r => fx r * fy r), hsum (fun r => sq (fx r))]
  have hden : denOf (s1.map fx) = denOf (s2.map fx) := by
    rw [denOf, denOf, map_sq_map, map_sq_map, List.length_map,
      List.length_map, hlen, hsum fx, hsum (fun r => sq (fx r))]
  have hint : interceptOf (s1.map fy) (s1.map fx)
      = interceptOf (s2.map fy) (s2.map fx) := by
    rw [interceptOf, interceptOf, hslope, List.length_map, List.length_map,
      hlen, hsum fy, hsum fx]
  have hresid : residAt (s1.map fy) (s1.map fx)
      = residAt (s2.map fy) (s2.map fx) := by
    funext p
    rw [residAt, residAt, hslope, hint]
  have hscore : ∀ c,
      clusterScore (s1.map fy) (s1.map fx) (s1.map Row.clusterId) c
        = clusterScore (s2.map fy) (s2.map fx) (s2.map Row.clusterId) c := by
    intro c
    rw [clusterScore, clusterScore, ptsOf_map, ptsOf_map, hresid,
      List.length_map, List.length_map, hlen, hsum fx,
      perm_filter_map_sum h (fun r => (fy r, fx r, r.clusterId))
        (fun p => p.2.2 = c) (residAt (s2.map fy) (s2.map fx)),
      perm_filter_map_sum h (fun r => (fy r, fx r, r.clusterId))
        (fun p => p.2.2 = c)
        (fun p => p.2.1 * residAt (s2.map fy) (s2.map fx) p)]
  have hv11 : v11Of (s1.map fy) (s1.map fx) (s1.map Row.clusterId)
      = v11Of (s2.map fy) (s2.map fx) (s2.map Row.clusterId) := by
    rw [v11Of, v11Of, hden]
    have hFs : (clusterVals (s1.map Row.clusterId)).map
          (fun c => sq (clusterScore (s1.map fy) (s1.map fx)
            (s1.map Row.clusterId) c / denOf (s2.map fx)))
        = (clusterVals (s1.map Row.clusterId)).map
          (fun c => sq (clusterScore (s2.map fy) (s2.map fx)
            (s2.map Row.clusterId) c / denOf (s2.map fx))) :=
      List.map_congr_left fun c _ => by rw [hscore c]
    rw [hFs, clusterVals, clusterVals,
      ← List.sum_toFinset _ (firstAppear_nodup (s1.map Row.clusterId)),
      ← List.sum_toFinset _ (firstAppear_nodup (s2.map Row.clusterId)), htf]
  have hcount : (clusterVals (s1.map Row.clusterId)).length
      = (clusterVals (s2.map Row.clusterId)).length := by
    rw [clusterVals, clusterVals,
      ← List.toFinset_card_of_nodup (firstAppear_nodup (s1.map Row.clusterId)),
      ← List.toFinset_card_of_nodup (firstAppear_nodup (s2.map Row.clusterId)),
      htf]
  have hcorr : corrOf (s1.map fx) (s1.map Row.clusterId)
      = corrOf (s2.map fx) (s2.map Row.clusterId) := by
    rw [corrOf, corrOf, hcount, List.length_map, List.length_map, hlen]
  have hempty : (s1.map fx).isEmpty = (s2.map fx).isEmpty := by
    cases hc : s2.map fx with
    | nil =>
      have hp := h.map fx
      rw [hc] at hp
      rw [hp.eq_nil]
    | cons a t =>
      have hp := h.map fx
      rw [hc] at hp
      cases hd : s1.map fx with
      | nil =>
        rw [hd] at hp
        exact absurd hp.symm.eq_nil (by simp)
      | cons b u => rfl
  have hconst : isNonzeroConst (s1.map fx) = isNonzeroConst (s2.map fx) :=
    isNonzeroConst_perm (h.map fx)
  rw [fitCluster, fitCluster, hempty, hconst, hslope, hcorr, hv11, hcount,
    List.length_map, List.length_map, hlen]

theorem vsub_length (a b : List ℚ) : (vsub a b).length = min a.length b.length := by
  rw [vsub, List.length_map, List.length_zip]

theorem projStep_length (w u : List ℚ) (n : ℕ) (hw : w.length = n)
    (hu : u.length = n) : (projStep w u).length = n := by
  rw [projStep, vsub_length, vscale, List.length_map, hw, hu, min_self]

theorem foldl_projStep_length (us : List (List ℚ)) :
    ∀ (w : List ℚ) (n : ℕ), w.length = n → (∀ u ∈ us, u.length = n) →
      (us.foldl projStep w).length = n := by
  induction us with
  | nil =>
    intro w n hw _
    simpa using hw
  | cons u t ih =>
    intro w n hw hus
    rw [List.foldl_cons]
    exact ih _ n (projStep_length w u n hw (hus u (by simp)))
      (fun v hv => hus v (by simp [hv]))

theorem gsAux_length (cols : List (List ℚ)) :
    ∀ (acc : List (List ℚ)) (n : ℕ), (∀ u ∈ acc, u.length = n) →
      (∀ c ∈ cols, c.length = n) →
      ∀ u ∈ cols.foldl (fun us c => us ++ [us.foldl projStep c]) acc,
        u.length = n := by
  induction cols with
  | nil =>
    intro acc n hacc _ u hu
    exact hacc u (by simpa using hu)
  | cons c t ih =>
    intro acc n hacc hc u hu
    rw [List.foldl_cons] at hu
    refine ih _ n ?_ (fun d hd => hc d (by simp [hd])) u hu
    intro v hv
    rcases List.mem_append.1 hv with hv | hv
    · exact hacc v hv
    · rw [List.mem_singleton] at hv
      subst hv
      exact foldl_projStep_length acc c n (hc c (by simp)) hacc

theorem olsResid_length (cols : List (List ℚ)) (y : List ℚ) (n : ℕ)
    (hy : y.length = n) (hc : ∀ c ∈ cols, c.length = n) :
    (olsResid cols y).length = n := by
  rw [olsResid]
  refine foldl_projStep_length (gsCols cols) y n hy ?_
  rw [gsCols]
  exact gsAux_length cols [] n (by simp) hc

theorem linDesign_length (s : List Row) (g : List Row) :
    ∀ c ∈ linDesign s g, c.length = g.length := by
  intro c hc
  rw [linDesign] at hc
  split at hc
  · rw [List.mem_singleton] at hc
    subst hc
    rw [tCol, List.length_map]
  · rcases List.mem_cons.1 hc with rfl | hc
    · rw [onesCol, List.length_map]
    · rw [List.mem_singleton] at hc
      subst hc
      rw [tCol, List.length_map]

theorem quadDesign_length (s : List Row) (g : List Row) :
    ∀ c ∈ quadDesign s g, c.length = g.length := by
  intro c hc
  rw [quadDesign] at hc
  split at hc
  · rcases List.mem_cons.1 hc with rfl | hc
    · rw [tCol, List.length_map]
    · rw [List.mem_singleton] at hc
      subst hc
      rw [t2Col, List.length_map]
  · rcases List.mem_cons.1 hc with rfl | hc
    · rw [onesCol, List.length_map]
    · rcases List.mem_cons.1 hc with rfl | hc
      · rw [tCol, List.length_map]
      · rw [List.mem_singleton] at hc
        subst hc
        rw [t2Col, List.length_map]

theorem residCountyLin_length (s : List Row) (v : Row → ℚ) (c : ℕ) :
    (residCountyLin s v c).length = (countyGroup s c).length := by
  simp only [residCountyLin]
  split
  · rw [List.length_map]
  · exact olsResid_length _ _ _ (List.length_map _ _) (linDesign_length s _)

theorem residCountyQuad_length (s : List Row) (v : Row → ℚ) (c : ℕ) :
    (residCountyQuad s v c).length = (countyGroup s c).length := by
  simp only [residCountyQuad]
  split
  · rw [List.length_map]
  · exact olsResid_length _ _ _ (List.length_map _ _) (quadDesign_length s _)

theorem flatMap_zip_filter (cs : List ℕ) (hnd : cs.Nodup)
    (B : ℕ → List Row) (R : ℕ → List ℚ)
    (hlen : ∀ c, (R c).length = (B c).length)
    (hcounty : ∀ c, ∀ r ∈ B c, r.county = c) :
    (∀ c ∈ cs, (((cs.flatMap B).zip (cs.flatMap R)).filter
        (fun p => p.1.county = c)).map Prod.snd = R c) ∧
    (∀ c ∉ cs, ((cs.flatMap B).zip (cs.flatMap R)).filter
        (fun p => p.1.county = c) = []) := by
  induction cs with
  | nil =>
    constructor
    · intro c hc
      simp at hc
    · intro c _
      simp
  | cons c0 t ih =>
    obtain ⟨hc0, hndt⟩ := List.nodup_cons.1 hnd
    have ihh := ih hndt
    have hzip : ((c0 :: t).flatMap B).zip ((c0 :: t).flatMap R)
        = (B c0).zip (R c0) ++ (t.flatMap B).zip (t.flatMap R) := by
      rw [List.flatMap_cons, List.flatMap_cons]
      exact List.zip_append (hlen c0).symm
    have hheadfil : ∀ c, c ≠ c0 →
        ((B c0).zip (R c0)).filter (fun p => p.1.county = c) = [] := by
      intro c hne
      rw [List.filter_eq_nil_iff]
      intro p hp
      have hp1 := (List.of_mem_zip hp).1
      have hpc : p.1.county = c0 := hcounty c0 p.1 hp1
      simp [hpc, Ne.symm hne]
    constructor
    · intro c hc
      rw [hzip, List.filter_append, List.map_append]
      rcases List.mem_cons.1 hc with rfl | hct
      · have h1 : ((B c).zip (R c)).filter (fun p => p.1.county = c)
            = (B c).zip (R c) := by
          rw [List.filter_eq_self]
          intro p hp
          have hp1 := (List.of_mem_zip hp).1
          simpa using hcounty c p.1 hp1
        rw [h1, ihh.2 c hc0, List.map_nil, List.append_nil]
        exact List.map_snd_zip _ _ (le_of_eq (hlen c))
      · have hne : c ≠ c0 := fun he => hc0 (he ▸ hct)
        rw [hheadfil c hne, List.map_nil, List.nil_append]
        exact ihh.1 c hct
    · intro c hc
      have hnc0 : c ≠ c0 := fun he => hc (by rw [he]; exact List.mem_cons_self _ _)
      have hnt : c ∉ t := fun he => hc (List.mem_cons_of_mem _ he)
      rw [hzip, List.filter_append, hheadfil c hnc0, ihh.2 c hnt,
        List.append_nil]

theorem countyGroup_eq_nil_of_not_mem {s : List Row} {c : ℕ}
    (hc : c ∉ countyOrder s) : countyGroup s c = [] := by
  rw [countyGroup, List.filter_eq_nil_iff]
  intro r hr
  intro hrc
  apply hc
  rw [countyOrder, mem_firstAppear]
  have : r.county = c := by simpa using hrc
  exact this ▸ List.mem_map_of_mem Row.county hr

theorem contiguous_correctly_assigned (s : List Row) (res : ℕ → List ℚ)
    (hres : ∀ c, (res c).length = (countyGroup s c).length)
    (hcont : Contiguous s) :
    CorrectlyAssigned s res ((countyOrder s).flatMap res) := by
  have hnd : (countyOrder s).Nodup := firstAppear_nodup _
  have hmain := flatMap_zip_filter (countyOrder s) hnd (countyGroup s) res
    hres (fun c r hr => mem_countyGroup_county hr)
  constructor
  · have h1 : ((countyOrder s).flatMap res).length
        = ((countyOrder s).flatMap (countyGroup s)).length := by
      rw [List.length_flatMap, List.length_flatMap]
      congr 1
      apply List.map_congr_left
      intro c _
      simpa [Function.comp] using hres c
    rw [h1, ← hcont]
  · intro c
    by_cases hc : c ∈ countyOrder s
    · nth_rewrite 1 [hcont]
      exact hmain.1 c hc
    · nth_rewrite 1 [hcont]
      rw [hmain.2 c hc, List.map_nil]
      symm
      have : (res c).length = 0 := by
        rw [hres c, countyGroup_eq_nil_of_not_mem hc]
        rfl
      exact List.eq_nil_of_length_eq_zero this

/-! ## Claim C10: unknown trend type -/

/-- C10: for any `trend_type` outside none/linear/quadratic the
estimator reaches the final regression with `y_final`/`x_final` never
assigned and raises `UnboundLocalError`, on every input panel; the
argument is not validated as the enum of the data model. -/
theorem c10_unknown_trend_unbound (df : List InRow) (t : String)
    (h1 : t ≠ "none") (h2 : t ≠ "linear") (h3 : t ≠ "quadratic") :
    runTwfe df t = .error .unboundLocal := by
  unfold runTwfe finalSeries
  simp [h1, h2, h3]

/-- C10 witness: `trend_type='cubic'` on a concrete panel. -/
theorem c10_unknown_trend_unbound_witness :
    ("cubic" ≠ "none" ∧ "cubic" ≠ "linear" ∧ "cubic" ≠ "quadratic") ∧
    runTwfe pInterleaved "cubic" = .error .unboundLocal :=
  ⟨⟨by decide, by decide, by decide⟩,
   c10_unknown_trend_unbound pInterleaved "cubic" (by decide) (by decide)
     (by decide)⟩

/-! ## Claim C8: determinism -/

/-- C8: the estimator is a deterministic function of its arguments: two
invocations on identical input that succeed return identical coefficient
and identical (squared) standard error. -/
theorem c8_deterministic (df : List InRow) (trend : String)
    (r1 r2 : RegResult) (h1 : runTwfe df trend = .ok r1)
    (h2 : runTwfe df trend = .ok r2) :
    r1.coef = r2.coef ∧ r1.seSq = r2.seSq := by
  rw [h1] at h2
  injection h2 with h
  rw [h]
  exact ⟨rfl, rfl⟩

/-- C8 witness: a concrete successful run compared with itself. -/
theorem c8_deterministic_witness :
    runTwfe pContiguous "none" = .ok ⟨7/16, 33951/14336, 9, 3⟩ ∧
    ((⟨7/16, 33951/14336, 9, 3⟩ : RegResult).coef
        = (⟨7/16, 33951/14336, 9, 3⟩ : RegResult).coef ∧
      (⟨7/16, 33951/14336, 9, 3⟩ : RegResult).seSq
        = (⟨7/16, 33951/14336, 9, 3⟩ : RegResult).seSq) :=
  ⟨by with_unfolding_all rfl,
   c8_deterministic pContiguous "none" _ _ (by with_unfolding_all rfl)
     (by with_unfolding_all rfl)⟩

/-! ## Claim C3: small-group pass-through in trend absorption -/

/-- C3: in the trend-absorption step, an entity with fewer rows than the
trend model's parameter count (fewer than 2 for linear, fewer than 3 for
quadratic) has its twice-demeaned outcome and treatment series passed
through unchanged, and the trend step completes without error. -/
theorem c3_small_group_passthrough (df : List InRow) (c : ℕ) :
    ((countyGroup (buildSample df) c).length < 2 →
      residCountyLin (buildSample df) (ydm2 (buildSample df)) c
        = (countyGroup (buildSample df) c).map (ydm2 (buildSample df)) ∧
      residCountyLin (buildSample df) (tdm2 (buildSample df)) c
        = (countyGroup (buildSample df) c).map (tdm2 (buildSample df)) ∧
      (∃ p, finalSeries (buildSample df) "linear" = .ok p)) ∧
    ((countyGroup (buildSample df) c).length < 3 →
      residCountyQuad (buildSample df) (ydm2 (buildSample df)) c
        = (countyGroup (buildSample df) c).map (ydm2 (buildSample df)) ∧
      residCountyQuad (buildSample df) (tdm2 (buildSample df)) c
        = (countyGroup (buildSample df) c).map (tdm2 (buildSample df)) ∧
      (∃ p, finalSeries (buildSample df) "quadratic" = .ok p)) := by
  constructor
  · intro h
    have hfs : finalSeries (buildSample df) "linear" = .ok
        ((countyOrder (buildSample df)).flatMap
          (residCountyLin (buildSample df) (ydm2 (buildSample df))),
         (countyOrder (buildSample df)).flatMap
          (residCountyLin (buildSample df) (tdm2 (buildSample df)))) := by
      simp [finalSeries]
    exact ⟨by simp [residCountyLin, h], by simp [residCountyLin, h],
      ⟨_, hfs⟩⟩
  · intro h
    have hfs : finalSeries (buildSample df) "quadratic" = .ok
        ((countyOrder (buildSample df)).flatMap
          (residCountyQuad (buildSample df) (ydm2 (buildSample df))),
         (countyOrder (buildSample df)).flatMap
          (residCountyQuad (buildSample df) (tdm2 (buildSample df)))) := by
      simp [finalSeries]
    exact ⟨by simp [residCountyQuad, h], by simp [residCountyQuad, h],
      ⟨_, hfs⟩⟩

/-- C3 witness: a 1-row county under the linear trend and a 2-row county
under the quadratic trend. -/
theorem c3_small_group_passthrough_witness :
    ((countyGroup (buildSample pSmallGroups) 2).length < 2 ∧
      residCountyLin (buildSample pSmallGroups) (ydm2 (buildSample pSmallGroups)) 2
        = (countyGroup (buildSample pSmallGroups) 2).map
            (ydm2 (buildSample pSmallGroups)) ∧
      residCountyLin (buildSample pSmallGroups) (tdm2 (buildSample pSmallGroups)) 2
        = (countyGroup (buildSample pSmallGroups) 2).map
            (tdm2 (buildSample pSmallGroups)) ∧
      (∃ p, finalSeries (buildSample pSmallGroups) "linear" = .ok p)) ∧
    ((countyGroup (buildSample pSmallGroups) 3).length < 3 ∧
      residCountyQuad (buildSample pSmallGroups) (ydm2 (buildSample pSmallGroups)) 3
        = (countyGroup (buildSample pSmallGroups) 3).map
            (ydm2 (buildSample pSmallGroups)) ∧
      residCountyQuad (buildSample pSmallGroups) (tdm2 (buildSample pSmallGroups)) 3
        = (countyGroup (buildSample pSmallGroups) 3).map
            (tdm2 (buildSample pSmallGroups)) ∧
      (∃ p, finalSeries (buildSample pSmallGroups) "quadratic" = .ok p)) :=
  ⟨⟨by decide, (c3_small_group_passthrough pSmallGroups 2).1 (by decide)⟩,
   ⟨by decide, (c3_small_group_passthrough pSmallGroups 3).2 (by decide)⟩⟩

/-! ## Claim C2: fallback on backend failure -/

/-- C2 counterexample: when both the `PanelOLS` backend and the manual
fallback's library fit raise, `run_panel_regression` propagates the
second exception to its caller (the manual path has no `try`), instead
of returning an unavailable-result record with a reason string. -/
theorem c2_fallback_failure_propagates :
    runPanelRegression backendRaises manualRaises pSmall2 (fun _ => true)
      "none" = .error "SVD did not converge" := by
  with_unfolding_all rfl

/-- C2 amended: on any exception from the `PanelOLS` backend the
estimator falls back to the manual within-transformation path (the
library error itself is never propagated); whatever the manual path
produces — including its own exception — becomes the result of the
call. -/
theorem c2_backend_failure_falls_back (backend : PanelBackend)
    (mfit : ManualBackend) (df : List InRow2) (flt : InRow2 → Bool)
    (trend : String) (e : String)
    (hne : buildSample2 df flt ≠ [])
    (hb : backend (buildSample2 df flt) trend = .error e) :
    runPanelRegression backend mfit df flt trend
      = runManualTwfe mfit df flt trend := by
  have h1 : (buildSample2 df flt).isEmpty = false := by
    cases hs : buildSample2 df flt with
    | nil => exact absurd hs hne
    | cons a t => rfl
  simp only [runPanelRegression, h1, hb, Bool.false_eq_true, if_false]

/-- C2 witness: a failing backend over a concrete nonempty panel, with
a manual path that returns a fit. -/
theorem c2_backend_failure_falls_back_witness :
    buildSample2 pSmall2 (fun _ => true) ≠ [] ∧
    backendRaises (buildSample2 pSmall2 (fun _ => true)) "none"
      = .error "Singular matrix" ∧
    runPanelRegression backendRaises manualReturns pSmall2 (fun _ => true)
      "none" = runManualTwfe manualReturns pSmall2 (fun _ => true) "none" :=
  ⟨by with_unfolding_all decide, rfl,
   c2_backend_failure_falls_back backendRaises manualReturns pSmall2
     (fun _ => true) "none" "Singular matrix" (by with_unfolding_all decide)
     rfl⟩

/-! ## Claim C1: empty panel after filtering -/

/-- C1: version 2's `run_panel_regression` returns the `None` signal on
the all-missing panel for every trend string, every filter and every
library behaviour; but version 4's `run_twfe_regression` has no empty
guard and raises (the zero-size `np.ptp` reduction inside
`sm.add_constant` on the empty final series) for each valid trend type,
instead of returning a no-result value. -/
theorem c1_empty_panel_not_guarded :
    (∀ (flt : InRow2 → Bool) (backend : PanelBackend)
        (mfit : ManualBackend) (trend : String),
      runPanelRegression backend mfit pAllMissing2 flt trend = .ok none) ∧
    runTwfe pAllMissing "none" = .error .valueError ∧
    runTwfe pAllMissing "linear" = .error .valueError ∧
    runTwfe pAllMissing "quadratic" = .error .valueError := by
  refine ⟨?_, by with_unfolding_all rfl, by with_unfolding_all rfl,
    by with_unfolding_all rfl⟩
  intro flt backend mfit trend
  have hs : buildSample2 pAllMissing2 flt = [] := by
    rw [buildSample2, List.filterMap_eq_nil_iff]
    intro r hr
    have hr2 := List.mem_of_mem_filter hr
    simp only [pAllMissing2, List.mem_cons, List.not_mem_nil, or_false] at hr2
    rcases hr2 with h | h <;> rw [h] <;> rfl
  unfold runPanelRegression
  rw [hs]
  rfl

/-! ## Claim C4: fields of the returned record -/

/-- C4 counterexample: two panels on which version 4's estimation
succeeds, returning literally identical records, while their numbers of
distinct time periods differ (3 versus 1): no component of the returned
record is (or determines) the number of distinct time periods, so the
record does not contain that field. -/
theorem c4_record_lacks_period_count :
    runTwfe pLeakA "none" = .ok ⟨1/2, 2/21, 9, 3⟩ ∧
    runTwfe pLeakB "none" = .ok ⟨1/2, 2/21, 9, 3⟩ ∧
    nPeriodsOf pLeakA = 3 ∧ nPeriodsOf pLeakB = 1 :=
  ⟨by with_unfolding_all rfl, by with_unfolding_all rfl,
   by with_unfolding_all decide, by with_unfolding_all decide⟩

/-- C4 amended: the extension estimator
(`05_run_extension.run_twfe_regression`) does return all six fields on
every successful run: coefficient, standard error and p-value from the
fit, the observation count, and the distinct-entity and distinct-period
counts of the retained sample. -/
theorem c4_extension_record_six_fields (backend : ExtBackend)
    (df : List InRowE) (flt : InRowE → Bool) (r : ExtOut)
    (h : runTwfeExt backend df flt = some r) :
    ∃ f, backend (buildSampleE df flt) = .ok f ∧ r.coef = f.coef ∧
      r.se = f.se ∧ r.pval = f.pval ∧ r.nObs = f.nobs ∧
      r.nEntities = ((buildSampleE df flt).map RowE.entity).toFinset.card ∧
      r.nPeriods = ((buildSampleE df flt).map RowE.time).toFinset.card := by
  simp only [runTwfeExt] at h
  cases he : (buildSampleE df flt).isEmpty with
  | true => simp [he] at h
  | false =>
    simp only [he, Bool.false_eq_true, if_false] at h
    cases hbe : backend (buildSampleE df flt) with
    | error e => simp [hbe] at h
    | ok f =>
      simp only [hbe, Option.some.injEq] at h
      subst h
      exact ⟨f, rfl, rfl, rfl, rfl, rfl, rfl, rfl⟩

/-- C4 witness: a concrete successful extension run with two entities
and two periods. -/
theorem c4_extension_record_six_fields_witness :
    runTwfeExt extReturns pExt (fun _ => true) = some ⟨2, 1, 1/2, 3, 2, 2⟩ ∧
    (∃ f, extReturns (buildSampleE pExt (fun _ => true)) = .ok f ∧
      (⟨2, 1, 1/2, 3, 2, 2⟩ : ExtOut).coef = f.coef ∧
      (⟨2, 1, 1/2, 3, 2, 2⟩ : ExtOut).se = f.se ∧
      (⟨2, 1, 1/2, 3, 2, 2⟩ : ExtOut).pval = f.pval ∧
      (⟨2, 1, 1/2, 3, 2, 2⟩ : ExtOut).nObs = f.nobs ∧
      (⟨2, 1, 1/2, 3, 2, 2⟩ : ExtOut).nEntities
        = ((buildSampleE pExt (fun _ => true)).map RowE.entity).toFinset.card ∧
      (⟨2, 1, 1/2, 3, 2, 2⟩ : ExtOut).nPeriods
        = ((buildSampleE pExt (fun _ => true)).map RowE.time).toFinset.card) :=
  ⟨by with_unfolding_all rfl,
   c4_extension_record_six_fields extReturns pExt (fun _ => true) _
     (by with_unfolding_all rfl)⟩

/-! ## Claim C6: group sums after double demeaning -/

/-- C6 counterexample: on the unbalanced panel `pUnbal` (county 1 in
periods 1 and 2, county 2 only in period 1) the doubly demeaned outcome
sums within the two county groups are `-1` and `1`, not zero. -/
theorem c6_entity_sums_nonzero_unbalanced :
    ((countyGroup (buildSample pUnbal) 1).map
      (ydm2 (buildSample pUnbal))).sum = -1 ∧
    ((countyGroup (buildSample pUnbal) 2).map
      (ydm2 (buildSample pUnbal))).sum = 1 ∧
    ¬ Balanced (buildSample pUnbal) :=
  ⟨by with_unfolding_all rfl, by with_unfolding_all rfl,
   by with_unfolding_all decide⟩

/-- C6 amended: after entity- then time-demeaning, the demeaned outcome
and treatment series sum to exactly zero within every time group, on
every panel; within entity groups the sums are zero for balanced panels
(every entity observed once in every period), but not in general for
unbalanced ones. -/
theorem c6_demeaned_group_sums (df : List InRow) (t e : ℕ) :
    ((timeGroup (buildSample df) t).map (ydm2 (buildSample df))).sum = 0 ∧
    ((timeGroup (buildSample df) t).map (tdm2 (buildSample df))).sum = 0 ∧
    (Balanced (buildSample df) →
      ((countyGroup (buildSample df) e).map (ydm2 (buildSample df))).sum = 0 ∧
      ((countyGroup (buildSample df) e).map (tdm2 (buildSample df))).sum = 0) :=
  ⟨sum_dmBoth_timeGroup (buildSample df) Row.y t,
   sum_dmBoth_timeGroup (buildSample df) Row.treat t,
   fun hb =>
     ⟨sum_dmBoth_countyGroup_balanced (buildSample df) Row.y hb e,
      sum_dmBoth_countyGroup_balanced (buildSample df) Row.treat hb e⟩⟩

/-! ## Claim C5: single time period -/

/-- C5: when all retained rows share one state-year period, the
time-demeaning step is a no-op (the entity-demeaned outcome and
treatment series pass through unchanged), and any coefficient returned
with `trend_type='none'` equals the OLS slope of the entity-demeaned
outcome on the entity-demeaned treatment. -/
theorem c5_single_period_noop (df : List InRow) (T : ℕ)
    (hT : ∀ r ∈ buildSample df, r.stateYear = T) :
    (buildSample df).map (ydm2 (buildSample df))
      = (buildSample df).map (ydm (buildSample df)) ∧
    (buildSample df).map (tdm2 (buildSample df))
      = (buildSample df).map (tdm (buildSample df)) ∧
    ∀ r : RegResult, runTwfe df "none" = .ok r →
      r.coef = olsSlope ((buildSample df).map (tdm (buildSample df)))
          ((buildSample df).map (ydm (buildSample df))) := by
  have hy : (buildSample df).map (ydm2 (buildSample df))
      = (buildSample df).map (ydm (buildSample df)) :=
    dmBoth_noop_single_period (buildSample df) Row.y T hT
  have hx : (buildSample df).map (tdm2 (buildSample df))
      = (buildSample df).map (tdm (buildSample df)) :=
    dmBoth_noop_single_period (buildSample df) Row.treat T hT
  refine ⟨hy, hx, ?_⟩
  intro r hr
  rw [runTwfe_none] at hr
  obtain ⟨hcoef, hne, _⟩ := fitCluster_ok hr
  rw [hy, hx] at hcoef
  rw [hcoef, olsSlope_eq_slopeOf]
  · rw [hx] at hne
    exact hne
  · rw [List.length_map, List.length_map]

/-- C5 witness: the one-period panel `pOnePeriod` (all rows in
state-year 7); the returned coefficient is the entity-demeaned slope. -/
theorem c5_single_period_noop_witness :
    runTwfe pOnePeriod "none" = .ok ⟨1, 3/2, 4, 2⟩ ∧
    (⟨1, 3/2, 4, 2⟩ : RegResult).coef
      = olsSlope ((buildSample pOnePeriod).map (tdm (buildSample pOnePeriod)))
          ((buildSample pOnePeriod).map (ydm (buildSample pOnePeriod))) :=
  ⟨by with_unfolding_all rfl,
   (c5_single_period_noop pOnePeriod 7 (by with_unfolding_all decide)).2.2 _
     (by with_unfolding_all rfl)⟩

/-! ## Claim C7: permutation invariance of the standard error -/

/-- C7 counterexample: the same nine observations, interleaved versus
entity-contiguous, under `trend_type='linear'`: the coefficient agrees
but the squared cluster-robust standard error is `0` in one order and
`1587/2366` in the other (the grouped-order residuals meet cluster
labels in original row order). -/
theorem c7_se_order_dependent_linear :
    (buildSample pContiguous).Perm (buildSample pInterleaved) ∧
    runTwfe pInterleaved "linear" = .ok ⟨47/26, 0, 9, 3⟩ ∧
    runTwfe pContiguous "linear" = .ok ⟨47/26, 1587/2366, 9, 3⟩ ∧
    (0 : ℚ) ≠ 1587/2366 :=
  ⟨by with_unfolding_all decide, by with_unfolding_all rfl,
   by with_unfolding_all rfl, by with_unfolding_all decide⟩

/-- C7 amended: with `trend_type='none'` the estimator's entire result —
in particular the cluster-robust standard error — is invariant under any
permutation of the input rows. -/
theorem c7_perm_invariant_none (df1 df2 : List InRow) (h : df1.Perm df2) :
    runTwfe df1 "none" = runTwfe df2 "none" := by
  have hs : (buildSample df1).Perm (buildSample df2) := h.filterMap dropRow
  rw [runTwfe_none, runTwfe_none]
  have hylist : (buildSample df1).map (ydm2 (buildSample df1))
      = (buildSample df1).map (ydm2 (buildSample df2)) :=
    List.map_congr_left fun r _ => dmBoth_perm hs Row.y r
  have hxlist : (buildSample df1).map (tdm2 (buildSample df1))
      = (buildSample df1).map (tdm2 (buildSample df2)) :=
    List.map_congr_left fun r _ => dmBoth_perm hs Row.treat r
  rw [hylist, hxlist]
  exact fitCluster_perm hs (ydm2 (buildSample df2)) (tdm2 (buildSample df2))

/-- C7 witness: the interleaved and contiguous panels are permutations
of each other and give identical results under `trend_type='none'`. -/
theorem c7_perm_invariant_none_witness :
    pInterleaved.Perm pContiguous ∧
    runTwfe pInterleaved "none" = runTwfe pContiguous "none" :=
  ⟨by with_unfolding_all decide,
   c7_perm_invariant_none pInterleaved pContiguous
     (by with_unfolding_all decide)⟩

/-! ## Claim C9: positional reattachment of trend residuals -/

/-- C9: with a linear or quadratic trend the final series concatenates
per-county residual lists in first-appearance order and reattaches them
positionally to the row index.  When every county's rows are contiguous
in first-appearance order this assigns to each row exactly the residual
belonging to it (`CorrectlyAssigned`); on the interleaved panel
`pInterleaved` the assignment is wrong: the values sitting on county 1's
rows are not county 1's residual list (so they also meet the wrong
cluster labels in the final regression). -/
theorem c9_positional_reattachment :
    (∀ (df : List InRow) (v : Row → ℚ), Contiguous (buildSample df) →
      CorrectlyAssigned (buildSample df) (residCountyLin (buildSample df) v)
        ((countyOrder (buildSample df)).flatMap
          (residCountyLin (buildSample df) v)) ∧
      CorrectlyAssigned (buildSample df) (residCountyQuad (buildSample df) v)
        ((countyOrder (buildSample df)).flatMap
          (residCountyQuad (buildSample df) v))) ∧
    ¬ CorrectlyAssigned (buildSample pInterleaved)
        (residCountyLin (buildSample pInterleaved)
          (ydm2 (buildSample pInterleaved)))
        ((countyOrder (buildSample pInterleaved)).flatMap
          (residCountyLin (buildSample pInterleaved)
            (ydm2 (buildSample pInterleaved)))) := by
  constructor
  · intro df v hcont
    exact ⟨contiguous_correctly_assigned _ _
        (residCountyLin_length (buildSample df) v) hcont,
      contiguous_correctly_assigned _ _
        (residCountyQuad_length (buildSample df) v) hcont⟩
  · intro hca
    exact absurd (hca.2 1) (by with_unfolding_all decide)

/-- C9 witness: on the contiguous panel the attachment is correct. -/
theorem c9_positional_reattachment_witness :
    Contiguous (buildSample pContiguous) ∧
    CorrectlyAssigned (buildSample pContiguous)
      (residCountyLin (buildSample pContiguous)
        (ydm2 (buildSample pContiguous)))
      ((countyOrder (buildSample pContiguous)).flatMap
        (residCountyLin (buildSample pContiguous)
          (ydm2 (buildSample pContiguous)))) :=
  ⟨by with_unfolding_all decide,
   (c9_positional_reattachment.1 pContiguous
     (ydm2 (buildSample pContiguous)) (by with_unfolding_all decide)).1⟩

/-- C6 witness: the balanced 2x2 panel `pBal`; its entity sums vanish. -/
theorem c6_demeaned_group_sums_witness :
    Balanced (buildSample pBal) ∧
    (((countyGroup (buildSample pBal) 1).map
        (ydm2 (buildSample pBal))).sum = 0 ∧
      ((countyGroup (buildSample pBal) 1).map
        (tdm2 (buildSample pBal))).sum = 0) :=
  ⟨by with_unfolding_all decide,
   (c6_demeaned_group_sums pBal 1 1).2.2 (by with_unfolding_all decide)⟩

end Vbm
